import Mathlib

/-!
# MouseMinder — verification of the core tracking engine

Shallow embedding of the `mouse_minder` repository's core modules:
`src/config.rs` (constants), `src/tracker.rs` (polling loop, tracking flag,
position store, pointer restore), `src/hotkeys.rs` (global hotkey listener)
and `src/app.rs` (facade: hotkey drain and feedback expiry).

Time is modelled as a natural number of milliseconds on a single monotone
clock (`Instant` and `SystemTime` of the source are both mapped to it).
The shared mutex-guarded cells of the source become fields of an explicit
state record, and one iteration of the background polling loop becomes the
pure transition function `pollTick`; a run of the loop is a fold over the
list of (tick time, sampled coordinates) pairs. OS effects (device query,
enigo pointer moves, hotkey manager) are modelled as explicit inputs and
outputs of the transition functions.
-/

namespace MouseMinder

/-! ## Constants — src/config.rs -/

def INACTIVITY_THRESHOLD_MS : Nat := 2000

def POLL_INTERVAL_MS : Nat := 50

def UI_REFRESH_INTERVAL_MS : Nat := 100

def FEEDBACK_DURATION_MS : Nat := 2000

/-! ## Data model — src/tracker.rs -/

/-- The `SavedPosition { x, y, timestamp }` record of src/tracker.rs; the `SystemTime`
timestamp is milliseconds on the model clock. -/
structure SavedPosition where
  x : Int
  y : Int
  timestamp : Nat
  deriving Repr, DecidableEq

/-- The state visible to one iteration of the tracking thread: the two
shared cells `is_tracking` and `saved_position` of `MouseTracker`, plus the
thread-local `last_position` and `last_movement_time` of
`spawn_tracking_thread`. -/
structure TrackerState where
  is_tracking : Bool
  saved_position : Option SavedPosition
  last_position : Int × Int
  last_movement_time : Nat
  deriving Repr, DecidableEq

/-- Initial state built by `MouseTracker::new` / thread start:
tracking off, nothing saved, `last_position = (0, 0)`,
`last_movement_time = Instant::now()` (the spawn time `t0`). -/
def MouseTracker.new (t0 : Nat) : TrackerState :=
  { is_tracking := false
    saved_position := none
    last_position := (0, 0)
    last_movement_time := t0 }

/-- The `should_update` flag computed inside the loop body of
`spawn_tracking_thread`: save when nothing is stored or the stored
coordinates differ from the current ones. -/
def shouldUpdate (saved : Option SavedPosition) (current : Int × Int) : Bool :=
  match saved with
  | none => true
  | some p => p.x != current.1 || p.y != current.2

/-- One iteration of the polling loop body of
`MouseTracker::spawn_tracking_thread`, at clock time `now`, with the
device query returning `current`. -/
def pollTick (s : TrackerState) (now : Nat) (current : Int × Int) : TrackerState :=
  if s.is_tracking then
    if current.1 != s.last_position.1 || current.2 != s.last_position.2 then
      { s with last_movement_time := now, last_position := current }
    else
      if INACTIVITY_THRESHOLD_MS ≤ now - s.last_movement_time then
        if shouldUpdate s.saved_position current then
          { s with saved_position := some ⟨current.1, current.2, now⟩ }
        else s
      else s
  else s

/-- A run of the polling loop: fold `pollTick` over the list of
(tick time, sampled coordinates) pairs. -/
def runTicks (s : TrackerState) (ticks : List (Nat × (Int × Int))) : TrackerState :=
  ticks.foldl (fun st tk => pollTick st tk.1 tk.2) s

/-- Rust `MouseTracker::start_tracking`. -/
def start_tracking (s : TrackerState) : TrackerState :=
  { s with is_tracking := true }

/-- Rust `MouseTracker::stop_tracking`. -/
def stop_tracking (s : TrackerState) : TrackerState :=
  { s with is_tracking := false }

/-- Rust `MouseTracker::is_tracking`. -/
def is_tracking (s : TrackerState) : Bool :=
  s.is_tracking

/-- Rust `MouseTracker::get_saved_position`. -/
def get_saved_position (s : TrackerState) : Option SavedPosition :=
  s.saved_position

/-- Rust `MouseTracker::reset_position`. -/
def reset_position (s : TrackerState) : TrackerState :=
  { s with saved_position := none }

/-- A synthesized absolute pointer move, as issued through
`enigo.move_mouse(x, y, Coordinate::Abs)`. -/
structure MoveCommand where
  x : Int
  y : Int
  absolute : Bool
  deriving Repr, DecidableEq

/-- Rust `MouseTracker::restore_position`. `enigo_ok` models whether
`Enigo::new(&Settings::default())` returns `Ok`; `move_ok` models whether
the OS `move_mouse` call reports success (its result is discarded by the
source via `let _ = ...`). Returns the boolean result together with the
pointer-move command issued, if any. -/
def restore_position (saved : Option SavedPosition) (enigo_ok : Bool)
    (move_ok : Bool) : Bool × Option MoveCommand :=
  match saved with
  | some pos =>
      if enigo_ok then
        let _ := move_ok
        (true, some ⟨pos.x, pos.y, true⟩)
      else (false, none)
  | none => (false, none)

/-! ## Hotkeys — src/hotkeys.rs -/

/-- The `HotKeyAction` enum of src/hotkeys.rs: single variant. -/
inductive HotKeyAction where
  | RestorePosition
  deriving Repr, DecidableEq

/-- The modifier bitflags used when building the binding. -/
structure Modifiers where
  control : Bool
  shift : Bool
  meta : Bool
  alt : Bool
  deriving Repr, DecidableEq

/-- Key codes; only `KeyR` is used by the source. -/
inductive Code where
  | KeyR
  deriving Repr, DecidableEq

/-- A registered hotkey: modifiers plus key code. -/
structure HotKey where
  mods : Modifiers
  code : Code
  deriving Repr, DecidableEq

/-- The platform-specific modifier chosen in `HotKeySystem::new`:
`META | SHIFT` when `cfg!(target_os = "macos")`, otherwise
`CONTROL | SHIFT`. -/
def platform_modifier (is_macos : Bool) : Modifiers :=
  if is_macos then
    { control := false, shift := true, meta := true, alt := false }
  else
    { control := true, shift := true, meta := false, alt := false }

/-- The single binding registered by `HotKeySystem::new`:
platform modifier + `Code::KeyR`. -/
def restore_hotkey (is_macos : Bool) : HotKey :=
  { mods := platform_modifier is_macos, code := Code.KeyR }

/-- The press/release state of a global-hotkey event. -/
inductive HotKeyState where
  | Pressed
  | Released
  deriving Repr, DecidableEq

/-- An OS hotkey event: the numeric identifier of the binding it refers
to, and its press/release state. -/
structure HotKeyEvent where
  id : Nat
  state : HotKeyState
  deriving Repr, DecidableEq

/-- The body of the listener loop of `HotKeySystem::new` for one received
event, given the identifier `restore_id` of the registered binding:
the action sent through the channel, if any. -/
def listener_step (restore_id : Nat) (e : HotKeyEvent) : Option HotKeyAction :=
  if e.state = HotKeyState.Pressed ∧ e.id = restore_id then
    some HotKeyAction.RestorePosition
  else none

/-- All actions sent by the spawned listener thread over a stream of
events. When `GlobalHotKeyManager::new` fails (`manager_ok = false`) or
`manager.register` fails (`register_ok = false`), the thread body falls
through and nothing is ever sent. -/
def listener_sends (manager_ok register_ok : Bool) (restore_id : Nat)
    (events : List HotKeyEvent) : List HotKeyAction :=
  if manager_ok ∧ register_ok then
    events.filterMap (listener_step restore_id)
  else []

/-- The `HotKeySystem` value: only a thread handle in the source, so no
observable data. -/
structure HotKeySystem where
  deriving Repr, DecidableEq

/-- Rust `HotKeySystem::new`: spawns the listener thread and returns `Ok`
unconditionally — manager construction and registration failures are
absorbed inside the spawned closure. -/
def HotKeySystem.new (manager_ok register_ok : Bool) :
    Except String HotKeySystem :=
  let _ := manager_ok
  let _ := register_ok
  Except.ok {}

/-! ## Facade — src/app.rs -/

/-- The `MouseMinderApp` state relevant to the core: the tracker, the pending
hotkey-channel contents, `last_restore_time` and
`restore_feedback_visible`. -/
structure AppState where
  tracker : TrackerState
  queue : List HotKeyAction
  last_restore_time : Option Nat
  restore_feedback_visible : Bool
  deriving Repr, DecidableEq

/-- One iteration of the `while let Ok(action) = try_recv` loop of
`MouseMinderApp::handle_hotkeys`: on `RestorePosition`, call
`restore_position`; on success set the feedback flag and stamp the time. -/
def process_action (enigo_ok move_ok : Bool) (now : Nat) (s : AppState)
    (a : HotKeyAction) : AppState :=
  match a with
  | HotKeyAction.RestorePosition =>
      if (restore_position s.tracker.saved_position enigo_ok move_ok).1 then
        { s with last_restore_time := some now, restore_feedback_visible := true }
      else s

/-- The drain half of `MouseMinderApp::handle_hotkeys` (app.rs lines
40–51): receive without blocking until the channel is empty, processing
each action. Also returns the number of `restore_position` invocations
made, as instrumentation. -/
def drain_hotkey_actions (enigo_ok move_ok : Bool) (now : Nat) (s : AppState) :
    AppState × Nat :=
  (s.queue.foldl (process_action enigo_ok move_ok now) { s with queue := [] },
    s.queue.length)

/-- The expiry half of `MouseMinderApp::handle_hotkeys` (app.rs lines
53–60): clear the feedback once `FEEDBACK_DURATION_MS` has elapsed since
`last_restore_time`. -/
def tick_feedback_expiry (s : AppState) (now : Nat) : AppState :=
  if s.restore_feedback_visible then
    match s.last_restore_time with
    | some t =>
        if FEEDBACK_DURATION_MS ≤ now - t then
          { s with restore_feedback_visible := false }
        else s
    | none => s
  else s

/-- Rust `MouseMinderApp::handle_hotkeys` in full: drain, then expiry check. -/
def handle_hotkeys (enigo_ok move_ok : Bool) (now : Nat) (s : AppState) :
    AppState :=
  tick_feedback_expiry (drain_hotkey_actions enigo_ok move_ok now s).1 now

/-- Rust `MouseMinderApp::new` (app.rs): builds the tracker and calls
`HotKeySystem::new(tx).expect(...)`; the `expect` panic (modelled as
`none`) would fire only on an `Err` from `HotKeySystem::new`. -/
def MouseMinderApp.new (manager_ok register_ok : Bool) (t0 : Nat) :
    Option AppState :=
  match HotKeySystem.new manager_ok register_ok with
  | Except.ok _ =>
      some { tracker := MouseTracker.new t0
             queue := []
             last_restore_time := none
             restore_feedback_visible := false }
  | Except.error _ => none

/-- Invariant of a resting phase of the polling loop: tracking enabled,
pointer observed resting at `(cx, cy)` since model time `M`, and the store
either empty or already holding `(cx, cy)` with a timestamp at or past the
threshold moment `M + INACTIVITY_THRESHOLD_MS`. -/
def RestInv (cx cy : Int) (M : Nat) (s : TrackerState) : Prop :=
  s.is_tracking = true ∧ s.last_position = (cx, cy) ∧
    s.last_movement_time = M ∧
    (s.saved_position = none ∨
      ∃ t, s.saved_position = some ⟨cx, cy, t⟩ ∧
        M + INACTIVITY_THRESHOLD_MS ≤ t)

/-! ## Theorems -/

/-- Characterisation of a tick that samples the coordinates the pointer is
already resting at: either the threshold has elapsed and the store needs
updating — then the position is saved with the tick's time — or the state
is unchanged. -/
theorem pollTick_rest (cx cy : Int) (u : Nat) (s : TrackerState)
    (ht : s.is_tracking = true) (hp : s.last_position = (cx, cy)) :
    pollTick s u (cx, cy) =
      if INACTIVITY_THRESHOLD_MS ≤ u - s.last_movement_time ∧
          shouldUpdate s.saved_position (cx, cy) = true then
        { s with saved_position := some ⟨cx, cy, u⟩ }
      else s := by
  unfold pollTick
  rw [ht, hp]
  simp only [if_true, bne_self_eq_false, Bool.or_self, Bool.false_eq_true,
    if_false]
  by_cases h1 : INACTIVITY_THRESHOLD_MS ≤ u - s.last_movement_time
  · by_cases h2 : shouldUpdate s.saved_position (cx, cy) = true
    · simp [h1, h2]
    · simp [h1, h2]
  · simp [h1]

/-- A rest-phase tick preserves the rest invariant. -/
theorem restInv_pollTick (cx cy : Int) (M u : Nat) (s : TrackerState)
    (h : RestInv cx cy M s) : RestInv cx cy M (pollTick s u (cx, cy)) := by
  obtain ⟨ht, hp, hm, hs⟩ := h
  rw [pollTick_rest cx cy u s ht hp]
  split
  case isTrue hcond =>
    refine ⟨ht, hp, hm, Or.inr ⟨u, rfl, ?_⟩⟩
    have h1 := hcond.1
    rw [hm] at h1
    unfold INACTIVITY_THRESHOLD_MS at h1 ⊢
    omega
  case isFalse => exact ⟨ht, hp, hm, hs⟩

/-- A run of rest-phase ticks preserves the rest invariant. -/
theorem runTicks_rest_inv (cx cy : Int) (M : Nat) :
    ∀ (times : List Nat) (s : TrackerState), RestInv cx cy M s →
      RestInv cx cy M (runTicks s (times.map fun u => (u, (cx, cy)))) := by
  intro times
  induction times with
  | nil => intro s h; exact h
  | cons u rest ih =>
      intro s h
      exact ih (pollTick s u (cx, cy)) (restInv_pollTick cx cy M u s h)

/-- Once the store holds exactly the resting coordinates, further
rest-phase ticks change nothing in the store (deduplication), over a whole
run. -/
theorem runTicks_rest_keep (cx cy : Int) (t : Nat) :
    ∀ (times : List Nat) (s : TrackerState),
      s.is_tracking = true → s.last_position = (cx, cy) →
      s.saved_position = some ⟨cx, cy, t⟩ →
      (runTicks s (times.map fun u => (u, (cx, cy)))).saved_position
        = some ⟨cx, cy, t⟩ := by
  intro times
  induction times with
  | nil => intro s _ _ hs; exact hs
  | cons u rest ih =>
      intro s ht hp hs
      have hstep : pollTick s u (cx, cy) = s := by
        rw [pollTick_rest cx cy u s ht hp, if_neg]
        intro hcond
        rw [hs] at hcond
        simp [shouldUpdate] at hcond
      show (runTicks (pollTick s u (cx, cy))
          (rest.map fun v => (v, (cx, cy)))).saved_position = some ⟨cx, cy, t⟩
      rw [hstep]
      exact ih s ht hp hs

/-- If some tick of a rest-phase run happens at or after the threshold
moment `M + INACTIVITY_THRESHOLD_MS`, the run ends with the resting
coordinates stored under a timestamp at or past that moment. -/
theorem runTicks_rest_hit (cx cy : Int) (M : Nat) :
    ∀ (times : List Nat) (s : TrackerState), RestInv cx cy M s →
      (∃ u ∈ times, M + INACTIVITY_THRESHOLD_MS ≤ u) →
      ∃ t, (runTicks s (times.map fun u => (u, (cx, cy)))).saved_position
          = some ⟨cx, cy, t⟩ ∧ M + INACTIVITY_THRESHOLD_MS ≤ t := by
  intro times
  induction times with
  | nil =>
      intro s _ h
      simp at h
  | cons u rest ih =>
      intro s hinv hex
      obtain ⟨ht, hp, hm, hs⟩ := hinv
      by_cases hu : M + INACTIVITY_THRESHOLD_MS ≤ u
      · have hsome : ∃ t, (pollTick s u (cx, cy)).saved_position
            = some ⟨cx, cy, t⟩ ∧ M + INACTIVITY_THRESHOLD_MS ≤ t := by
          rw [pollTick_rest cx cy u s ht hp]
          rcases hs with hnone | ⟨t, hst, hle⟩
          · rw [if_pos]
            · exact ⟨u, rfl, hu⟩
            · refine ⟨?_, ?_⟩
              · rw [hm]
                unfold INACTIVITY_THRESHOLD_MS at hu ⊢
                omega
              · rw [hnone]; rfl
          · rw [if_neg]
            · exact ⟨t, hst, hle⟩
            · intro hcond
              rw [hst] at hcond
              simp [shouldUpdate] at hcond
        obtain ⟨t, hsp, hle⟩ := hsome
        obtain ⟨ht', hp', _, _⟩ :=
          restInv_pollTick cx cy M u s ⟨ht, hp, hm, hs⟩
        refine ⟨t, ?_, hle⟩
        show (runTicks (pollTick s u (cx, cy))
            (rest.map fun v => (v, (cx, cy)))).saved_position = some ⟨cx, cy, t⟩
        exact runTicks_rest_keep cx cy t rest (pollTick s u (cx, cy)) ht' hp' hsp
      · obtain ⟨u', hmem, hle⟩ := hex
        rcases List.mem_cons.mp hmem with heq | hmem'
        · exact absurd (heq ▸ hle) hu
        · have hinv' := restInv_pollTick cx cy M u s ⟨ht, hp, hm, hs⟩
          show ∃ t, (runTicks (pollTick s u (cx, cy))
              (rest.map fun v => (v, (cx, cy)))).saved_position
              = some ⟨cx, cy, t⟩ ∧ M + INACTIVITY_THRESHOLD_MS ≤ t
          exact ih (pollTick s u (cx, cy)) hinv' ⟨u', hmem', hle⟩

/-- C1: in any run of the polling loop with tracking enabled, an empty
store, and every sample at the constant coordinates `(cx, cy)`, once some
tick falls at or after the moment the inactivity threshold elapses
(measured from the last observed movement: the state's
`last_movement_time` if the pointer was already resting at `(cx, cy)`,
otherwise the first tick, which observes the move to `(cx, cy)`), the
store afterwards holds `SavedPosition ⟨cx, cy, t⟩` with `t` at or past
that moment. -/
theorem idle_triggered_save (s0 : TrackerState) (cx cy : Int) (tm0 : Nat)
    (times : List Nat)
    (htrack : s0.is_tracking = true)
    (hsaved : s0.saved_position = none)
    (hq : ∃ u ∈ tm0 :: times,
      (if s0.last_position = (cx, cy) then s0.last_movement_time else tm0)
        + INACTIVITY_THRESHOLD_MS ≤ u) :
    ∃ t,
      (runTicks s0 ((tm0 :: times).map fun u => (u, (cx, cy)))).saved_position
          = some ⟨cx, cy, t⟩ ∧
      (if s0.last_position = (cx, cy) then s0.last_movement_time else tm0)
        + INACTIVITY_THRESHOLD_MS ≤ t := by
  by_cases hp : s0.last_position = (cx, cy)
  · rw [if_pos hp] at hq ⊢
    exact runTicks_rest_hit cx cy s0.last_movement_time (tm0 :: times) s0
      ⟨htrack, hp, rfl, Or.inl hsaved⟩ hq
  · rw [if_neg hp] at hq ⊢
    have hmove : pollTick s0 tm0 (cx, cy) =
        { s0 with last_movement_time := tm0, last_position := (cx, cy) } := by
      unfold pollTick
      rw [htrack]
      simp only [if_true]
      rw [if_pos]
      simp only [Bool.or_eq_true, bne_iff_ne]
      by_contra hcon
      push_neg at hcon
      exact hp (by rw [Prod.ext_iff]; exact ⟨hcon.1.symm, hcon.2.symm⟩)
    obtain ⟨u, hmem, hle⟩ := hq
    have hmem' : u ∈ times := by
      rcases List.mem_cons.mp hmem with heq | h'
      · subst heq
        unfold INACTIVITY_THRESHOLD_MS at hle
        omega
      · exact h'
    show ∃ t, (runTicks (pollTick s0 tm0 (cx, cy))
        (times.map fun v => (v, (cx, cy)))).saved_position
        = some ⟨cx, cy, t⟩ ∧ tm0 + INACTIVITY_THRESHOLD_MS ≤ t
    rw [hmove]
    exact runTicks_rest_hit cx cy tm0 times
      { s0 with last_movement_time := tm0, last_position := (cx, cy) }
      ⟨htrack, rfl, rfl, Or.inl hsaved⟩ ⟨u, hmem', hle⟩

/-- Witness for `idle_triggered_save`: a fresh tracker with tracking
started, ticks at 0 ms and 2000 ms with the pointer at `(100, 200)`. -/
theorem idle_triggered_save_witness :
    ∃ t,
      (runTicks (start_tracking (MouseTracker.new 0))
          (((0 : Nat) :: [2000]).map
            fun u => (u, ((100 : Int), (200 : Int))))).saved_position
          = some ⟨100, 200, t⟩ ∧
      (if (start_tracking (MouseTracker.new 0)).last_position
            = ((100 : Int), (200 : Int)) then
          (start_tracking (MouseTracker.new 0)).last_movement_time
        else 0) + INACTIVITY_THRESHOLD_MS ≤ t :=
  idle_triggered_save (start_tracking (MouseTracker.new 0)) 100 200 0 [2000]
    rfl rfl
    ⟨2000, by simp, by
      simp [start_tracking, MouseTracker.new, INACTIVITY_THRESHOLD_MS]⟩

/-- C2: For every polling tick executed while the tracking flag is
Disabled, the Polling Engine performs no write to the Position Store: the
whole tracker state (in particular the stored position, including `none`
on a fresh tracker) is unchanged by that tick, regardless of elapsed idle
time. -/
theorem disabled_no_store_write (s : TrackerState) (now : Nat)
    (c : Int × Int) (h : s.is_tracking = false) :
    pollTick s now c = s := by
  simp [pollTick, h]

/-- Witness for `disabled_no_store_write` at a concrete fresh tracker. -/
theorem disabled_no_store_write_witness :
    pollTick (MouseTracker.new 0) 5000 (100, 200) = MouseTracker.new 0 :=
  disabled_no_store_write (MouseTracker.new 0) 5000 (100, 200) rfl

/-- C3: The Polling Engine writes a new `SavedPosition` only when no
position is stored or the candidate coordinates differ from the stored
ones; once `⟨x, y, t⟩` is stored, a further tick sampling the same
coordinates leaves the stored record — timestamp included — unchanged. -/
theorem dedup_no_redundant_write (s : TrackerState) (now : Nat)
    (c : Int × Int) :
    ((pollTick s now c).saved_position ≠ s.saved_position →
      s.saved_position = none ∨
        ∃ p, s.saved_position = some p ∧ (p.x ≠ c.1 ∨ p.y ≠ c.2)) ∧
    (∀ x y t, s.saved_position = some ⟨x, y, t⟩ → c = (x, y) →
      (pollTick s now c).saved_position = some ⟨x, y, t⟩) := by
  constructor
  · intro hne
    cases hsp : s.saved_position with
    | none => exact Or.inl rfl
    | some p =>
        refine Or.inr ⟨p, rfl, ?_⟩
        by_contra hc
        push_neg at hc
        apply hne
        unfold pollTick
        cases htr : s.is_tracking with
        | false => simp
        | true =>
            simp only [if_true]
            split
            · rfl
            · split
              · rw [if_neg]
                simp [shouldUpdate, hsp, hc.1, hc.2]
              · rfl
  · intro x y t hsp hc
    subst hc
    unfold pollTick
    cases htr : s.is_tracking with
    | false => simp [hsp]
    | true =>
        simp only [if_true]
        split
        · exact hsp
        · split
          · rw [if_neg]
            · exact hsp
            · simp [shouldUpdate, hsp]
          · exact hsp

/-- Witness for `dedup_no_redundant_write`: with `⟨100, 200, 7⟩` stored and
the pointer still at `(100, 200)`, an idle tick changes nothing. -/
theorem dedup_no_redundant_write_witness :
    (pollTick
        { is_tracking := true
          saved_position := some ⟨100, 200, 7⟩
          last_position := (100, 200)
          last_movement_time := 0 }
        9000 (100, 200)).saved_position = some ⟨100, 200, 7⟩ :=
  (dedup_no_redundant_write
      { is_tracking := true
        saved_position := some ⟨100, 200, 7⟩
        last_position := (100, 200)
        last_movement_time := 0 }
      9000 (100, 200)).2 100 200 7 rfl rfl

/-- C4: `restore_position` returns `false` and issues no pointer-move
command when nothing is saved; with `⟨x, y, _⟩` saved it issues an absolute
move to `(x, y)` and returns `true` regardless of the discarded OS move
result, returning `false` (and issuing no move) only when construction of
the pointer-move engine fails. -/
theorem restore_position_spec (saved : Option SavedPosition)
    (enigo_ok move_ok : Bool) :
    (saved = none → restore_position saved enigo_ok move_ok = (false, none)) ∧
    (∀ p, saved = some p → enigo_ok = true →
      restore_position saved enigo_ok move_ok = (true, some ⟨p.x, p.y, true⟩)) ∧
    (∀ p, saved = some p → enigo_ok = false →
      restore_position saved enigo_ok move_ok = (false, none)) := by
  refine ⟨?_, ?_, ?_⟩
  · intro h; subst h; rfl
  · intro p h he; subst h; simp [restore_position, he]
  · intro p h he; subst h; simp [restore_position, he]

/-- Witness for `restore_position_spec`: fresh tracker, no saved position —
restore returns `false` with no move issued. -/
theorem restore_position_spec_witness :
    restore_position none true true = (false, none) :=
  (restore_position_spec none true true).1 rfl

/-- Processing one hotkey action changes neither the tracker nor the
queue field of the facade state. -/
theorem process_action_fields (enigo_ok move_ok : Bool) (now : Nat)
    (st : AppState) (a : HotKeyAction) :
    (process_action enigo_ok move_ok now st a).tracker = st.tracker ∧
    (process_action enigo_ok move_ok now st a).queue = st.queue := by
  cases a
  unfold process_action
  by_cases h : (restore_position st.tracker.saved_position enigo_ok move_ok).1
      = true
  · rw [if_pos h]; exact ⟨rfl, rfl⟩
  · rw [if_neg h]; exact ⟨rfl, rfl⟩

/-- Folding `process_action` over any action list changes neither the
tracker nor the queue field. -/
theorem foldl_process_fields (enigo_ok move_ok : Bool) (now : Nat) :
    ∀ (q : List HotKeyAction) (st : AppState),
      (q.foldl (process_action enigo_ok move_ok now) st).tracker = st.tracker ∧
      (q.foldl (process_action enigo_ok move_ok now) st).queue = st.queue := by
  intro q
  induction q with
  | nil => intro st; exact ⟨rfl, rfl⟩
  | cons a rest ih =>
      intro st
      obtain ⟨h1, h2⟩ := process_action_fields enigo_ok move_ok now st a
      obtain ⟨h3, h4⟩ := ih (process_action enigo_ok move_ok now st a)
      exact ⟨h3.trans h1, h4.trans h2⟩

/-- When the restore call fails, processing the whole queue is the
identity. -/
theorem foldl_process_no_restore (enigo_ok move_ok : Bool) (now : Nat) :
    ∀ (q : List HotKeyAction) (st : AppState),
      (restore_position st.tracker.saved_position enigo_ok move_ok).1 = false →
      q.foldl (process_action enigo_ok move_ok now) st = st := by
  intro q
  induction q with
  | nil => intro st _; rfl
  | cons a rest ih =>
      intro st hr
      have hstep : process_action enigo_ok move_ok now st a = st := by
        cases a
        unfold process_action
        rw [if_neg]
        rw [hr]
        simp
      show rest.foldl (process_action enigo_ok move_ok now)
          (process_action enigo_ok move_ok now st a) = st
      rw [hstep]
      exact ih st hr

/-- When the restore call succeeds, processing a nonempty queue ends with
the feedback visible and the restore time stamped with `now`. -/
theorem foldl_process_restore (enigo_ok move_ok : Bool) (now : Nat)
    (tr : TrackerState)
    (hr : (restore_position tr.saved_position enigo_ok move_ok).1 = true) :
    ∀ (q : List HotKeyAction) (st : AppState), st.tracker = tr → q ≠ [] →
      (q.foldl (process_action enigo_ok move_ok now) st).last_restore_time
          = some now ∧
      (q.foldl (process_action enigo_ok move_ok now)
          st).restore_feedback_visible = true := by
  intro q
  induction q with
  | nil => intro st _ hne; exact absurd rfl hne
  | cons a rest ih =>
      intro st htr _
      have hst1 : process_action enigo_ok move_ok now st a =
          { st with last_restore_time := some now
                    restore_feedback_visible := true } := by
        cases a
        unfold process_action
        rw [if_pos]
        rw [htr, hr]
      have htr1 : (process_action enigo_ok move_ok now st a).tracker = tr := by
        rw [hst1]; exact htr
      cases rest with
      | nil =>
          show (process_action enigo_ok move_ok now st a).last_restore_time
              = some now ∧
            (process_action enigo_ok move_ok now
                st a).restore_feedback_visible = true
          rw [hst1]
          exact ⟨rfl, rfl⟩
      | cons b rest2 =>
          exact ih (process_action enigo_ok move_ok now st a) htr1 (by simp)

/-- C5: one `drain_hotkey_actions` call empties the queue, invokes
`restore_position` exactly once per queued action (the returned count
equals the queue length) and leaves the tracker untouched; whenever the
restore invocation succeeds on a nonempty queue, it sets the
feedback-visible flag and stamps the restore time with `now`; when the
restore fails only the queue is cleared; and a call with an empty queue is
a strict no-op with zero invocations. -/
theorem drain_hotkey_actions_spec (s : AppState) (enigo_ok move_ok : Bool)
    (now : Nat) :
    ((drain_hotkey_actions enigo_ok move_ok now s).1.queue = [] ∧
      (drain_hotkey_actions enigo_ok move_ok now s).2 = s.queue.length ∧
      (drain_hotkey_actions enigo_ok move_ok now s).1.tracker = s.tracker) ∧
    (s.queue ≠ [] →
      (restore_position s.tracker.saved_position enigo_ok move_ok).1 = true →
      (drain_hotkey_actions enigo_ok move_ok now s).1.last_restore_time
          = some now ∧
      (drain_hotkey_actions enigo_ok move_ok now
          s).1.restore_feedback_visible = true) ∧
    ((restore_position s.tracker.saved_position enigo_ok move_ok).1 = false →
      (drain_hotkey_actions enigo_ok move_ok now s).1 = { s with queue := [] }) ∧
    (s.queue = [] → drain_hotkey_actions enigo_ok move_ok now s = (s, 0)) := by
  refine ⟨⟨?_, rfl, ?_⟩, ?_, ?_, ?_⟩
  · exact (foldl_process_fields enigo_ok move_ok now s.queue
      { s with queue := [] }).2
  · exact (foldl_process_fields enigo_ok move_ok now s.queue
      { s with queue := [] }).1
  · intro hne hr
    exact foldl_process_restore enigo_ok move_ok now s.tracker hr s.queue
      { s with queue := [] } rfl hne
  · intro hr
    exact foldl_process_no_restore enigo_ok move_ok now s.queue
      { s with queue := [] } hr
  · intro hq
    unfold drain_hotkey_actions
    rw [hq]
    show ({ s with queue := ([] : List HotKeyAction) }, 0) = (s, 0)
    cases s
    simp_all

/-- Witness for `drain_hotkey_actions_spec`: one queued `RestorePosition`
with a saved position and a working pointer-move engine sets the feedback
flag. -/
theorem drain_hotkey_actions_spec_witness :
    (drain_hotkey_actions true true 500
        { tracker :=
            { is_tracking := true
              saved_position := some ⟨100, 200, 0⟩
              last_position := (100, 200)
              last_movement_time := 0 }
          queue := [HotKeyAction.RestorePosition]
          last_restore_time := none
          restore_feedback_visible := false }).1.restore_feedback_visible
      = true :=
  ((drain_hotkey_actions_spec
      { tracker :=
          { is_tracking := true
            saved_position := some ⟨100, 200, 0⟩
            last_position := (100, 200)
            last_movement_time := 0 }
        queue := [HotKeyAction.RestorePosition]
        last_restore_time := none
        restore_feedback_visible := false }
      true true 500).2.1 (by simp) rfl).2

/-- C6: the listener sends `RestorePosition` iff the received event is a
press of the registered binding's identifier; the registered binding is
Shift+Ctrl+R on non-Apple platforms and Shift+META(Cmd)+R on Apple
platforms. Released events and events with other identifiers send
nothing. -/
theorem hotkey_send_iff (is_macos : Bool) (restore_id : Nat)
    (e : HotKeyEvent) :
    (listener_step restore_id e = some HotKeyAction.RestorePosition ↔
      e.state = HotKeyState.Pressed ∧ e.id = restore_id) ∧
    (listener_step restore_id e = none ↔
      ¬(e.state = HotKeyState.Pressed ∧ e.id = restore_id)) ∧
    restore_hotkey is_macos =
      { mods := { control := !is_macos, shift := true,
                  meta := is_macos, alt := false }
        code := Code.KeyR } := by
  refine ⟨?_, ?_, ?_⟩
  · unfold listener_step
    split
    · simp_all
    · simp_all
  · unfold listener_step
    split
    · simp_all
    · simp_all
  · cases is_macos <;> rfl

/-- C7: when the restore feedback is visible with `shownAt = t`, the expiry
check clears visibility iff at least `FEEDBACK_DURATION_MS` has elapsed
since `t`; with strictly less elapsed the feedback stays visible. -/
theorem feedback_expiry_spec (s : AppState) (now t : Nat)
    (hvis : s.restore_feedback_visible = true)
    (ht : s.last_restore_time = some t) :
    ((tick_feedback_expiry s now).restore_feedback_visible = false ↔
      t + FEEDBACK_DURATION_MS ≤ now) := by
  unfold tick_feedback_expiry
  rw [hvis, if_pos rfl, ht]
  by_cases hd : FEEDBACK_DURATION_MS ≤ now - t
  · simp only [hd, if_true]
    simp only [true_iff]
    unfold FEEDBACK_DURATION_MS at hd ⊢
    omega
  · simp only [hd, if_false]
    rw [hvis]
    simp only [Bool.true_eq_false, false_iff]
    unfold FEEDBACK_DURATION_MS at hd ⊢
    omega

/-- Witness for `feedback_expiry_spec`: feedback shown at time 0 is cleared
by a check at time 2000. -/
theorem feedback_expiry_spec_witness :
    (tick_feedback_expiry
        { tracker := MouseTracker.new 0
          queue := []
          last_restore_time := some 0
          restore_feedback_visible := true }
        2000).restore_feedback_visible = false ∧
    (0 : Nat) + FEEDBACK_DURATION_MS ≤ 2000 := by
  have h := feedback_expiry_spec
    { tracker := MouseTracker.new 0
      queue := []
      last_restore_time := some 0
      restore_feedback_visible := true }
    2000 0 rfl rfl
  exact ⟨h.mpr (by decide), by decide⟩

/-- C8: `start_tracking` and `stop_tracking` are idempotent: from any
starting state, one or two consecutive calls to `start_tracking` leave
`is_tracking` = `true`, and one or two consecutive calls to
`stop_tracking` leave it `false`. -/
theorem start_stop_idempotent (s : TrackerState) :
    is_tracking (start_tracking s) = true ∧
    is_tracking (start_tracking (start_tracking s)) = true ∧
    is_tracking (stop_tracking s) = false ∧
    is_tracking (stop_tracking (stop_tracking s)) = false :=
  ⟨rfl, rfl, rfl, rfl⟩

/-- C9: `HotKeySystem.new` returns `Ok` for every input — manager and
registration failures are absorbed inside the spawned thread, where they
only suppress all sends — so the facade constructor's `expect` never
fires. -/
theorem hotkey_system_new_never_fails (manager_ok register_ok : Bool)
    (t0 restore_id : Nat) (events : List HotKeyEvent) :
    (∃ sys, HotKeySystem.new manager_ok register_ok = Except.ok sys) ∧
    (MouseMinderApp.new manager_ok register_ok t0).isSome = true ∧
    listener_sends false register_ok restore_id events = [] ∧
    listener_sends manager_ok false restore_id events = [] := by
  refine ⟨⟨{}, rfl⟩, rfl, ?_, ?_⟩
  · simp [listener_sends]
  · simp [listener_sends]

/-- C10: the polling thread initialises its local last-observed position to
`(0, 0)`; a pointer sitting at `(0, 0)` from thread start is classified as
"no movement" on every sample (`last_movement_time` never resets from the
spawn time `t0`), and once `INACTIVITY_THRESHOLD_MS` from `t0` elapses a
`SavedPosition` at `(0, 0)` is written without any movement having been
observed. -/
theorem initial_zero_position_save (t0 now : Nat) :
    (MouseTracker.new t0).last_position = (0, 0) ∧
    (∀ u, (pollTick (start_tracking (MouseTracker.new t0)) u
        (0, 0)).last_movement_time = t0) ∧
    (t0 + INACTIVITY_THRESHOLD_MS ≤ now →
      (pollTick (start_tracking (MouseTracker.new t0)) now
          (0, 0)).saved_position = some ⟨0, 0, now⟩) := by
  refine ⟨rfl, ?_, ?_⟩
  · intro u
    unfold pollTick start_tracking MouseTracker.new
    simp only [bne_self_eq_false, Bool.or_self, if_true, if_false,
      Bool.false_eq_true]
    split
    · split <;> rfl
    · rfl
  · intro h
    have hth : INACTIVITY_THRESHOLD_MS ≤ now - t0 := by
      unfold INACTIVITY_THRESHOLD_MS at h ⊢
      omega
    unfold pollTick start_tracking MouseTracker.new
    simp [shouldUpdate, hth]

/-- Witness for `initial_zero_position_save` at `t0 = 0`, `now = 2000`. -/
theorem initial_zero_position_save_witness :
    (pollTick (start_tracking (MouseTracker.new 0)) 2000
        (0, 0)).saved_position = some ⟨0, 0, 2000⟩ :=
  (initial_zero_position_save 0 2000).2.2 (by decide)

end MouseMinder
